import Mathlib

/-!
Shallow embedding of the `social-todo-list` service (`src/main.go`):
the `ItemStatus` enum with its string/JSON/SQL conversions, the todo-item
table as a list of rows, and the five HTTP handlers (create, list, get,
update, delete) as pure functions over that table.

Go machine integers are modelled as `Int`; the only place overflow can
matter is `strconv.Atoi`, which rejects values outside the 64-bit signed
range, and that range check is embedded explicitly.
-/

/-- `type ItemStatus int` with the three declared constants
`ItemStatusDoing = 0`, `ItemStatusDone = 1`, `ItemDeleted = 2`
(`main.go:18-24`).  The program only ever constructs these three values
(`parseStr2ItemStatus` returns `ItemStatus(i)` for `i < 3`), so the enum is
embedded as a three-constructor inductive. -/
inductive ItemStatus where
  | doing
  | done
  | deleted
deriving DecidableEq, Repr

/-- The numeric value of the Go constant (`iota` order). -/
def ItemStatus.toNat : ItemStatus → Nat
  | .doing => 0
  | .done => 1
  | .deleted => 2

/-- `var allItemStatus = [3]string{"Doing", "Done", "Deleted"}` (`main.go:26`). -/
def allItemStatus : List String := ["Doing", "Done", "Deleted"]

/-- `func (item *ItemStatus) String() string { return allItemStatus[*item] }`
(`main.go:28-30`): index into `allItemStatus`. -/
def ItemStatus.string (item : ItemStatus) : String :=
  allItemStatus.getD item.toNat ""

/-- `parseStr2ItemStatus` (`main.go:32-40`): scan the `allItemStatus` array
in index order; on a match return `(ItemStatus(i), nil)`, otherwise
`(ItemStatus(0), errors.New("invalid status string"))`.  The Go pair
`(ItemStatus, error)` is embedded as `ItemStatus × Option String`
(`none` = nil error).  The loop over the fixed 3-element array is unrolled. -/
def parseStr2ItemStatus (s : String) : ItemStatus × Option String :=
  if s = "Doing" then (.doing, none)
  else if s = "Done" then (.done, none)
  else if s = "Deleted" then (.deleted, none)
  else (.doing, some "invalid status string")

/-- A `driver.Value` / SQL column value as seen by `Scan`: either the raw
bytes of a string column or some non-`[]byte` value (NULL, a number, ...). -/
inductive SqlValue where
  | bytes (s : String)
  | nonBytes
deriving DecidableEq, Repr

/-- `func (item *ItemStatus) Scan(value interface{}) error` (`main.go:43-59`):
fail unless the value is `[]byte`; parse the bytes with
`parseStr2ItemStatus`; on success assign to the receiver.  Embedded as a
function from the receiver's prior value and the scanned value to the
receiver's new value paired with the error. -/
def ItemStatus.scan (prev : ItemStatus) (value : SqlValue) : ItemStatus × Option String :=
  match value with
  | .nonBytes => (prev, some "fail to scan data from sql")
  | .bytes s =>
    match parseStr2ItemStatus s with
    | (v, none) => (v, none)
    | (_, some _) => (prev, some "fail to scan data from sql")

/-- `func (item *ItemStatus) Value() (driver.Value, error)` (`main.go:62-68`):
nil receiver yields SQL NULL (`none`), otherwise the status name string. -/
def ItemStatus.value : Option ItemStatus → Option String
  | none => none
  | some item => some item.string

/-- `func (item *ItemStatus) MarshalJSON() ([]byte, error)` (`main.go:70-76`):
nil receiver yields nil bytes, otherwise the name wrapped in double quotes. -/
def ItemStatus.marshalJSON : Option ItemStatus → Option String
  | none => none
  | some item => some ("\"" ++ item.string ++ "\"")

/-- `strings.ReplaceAll(string(data), "\"", "")` (`main.go:79`): the
replacement pattern is the single character `"` and the replacement is
empty, so the call removes every double-quote character of the input. -/
def stripQuotes (s : String) : String :=
  String.mk (s.data.filter (fun c => c ≠ '"'))

/-- `func (item *ItemStatus) UnmarshalJSON(data []byte) error` (`main.go:78-90`):
strip all double quotes, parse with `parseStr2ItemStatus`; on error return it
leaving the receiver unchanged, otherwise assign the parsed value. -/
def ItemStatus.unmarshalJSON (prev : ItemStatus) (data : String) : ItemStatus × Option String :=
  let str := stripQuotes data
  match parseStr2ItemStatus str with
  | (v, none) => (v, none)
  | (_, some e) => (prev, some e)

/-- The `strconv.Atoi` syntax-error message, `strconv.Atoi: parsing "<s>":
invalid syntax` (the embedding quotes the offending string without the
escaping `strconv.Quote` applies to non-printable runes). -/
def atoiSyntaxErr (s : String) : String :=
  "strconv.Atoi: parsing \"" ++ s ++ "\": invalid syntax"

/-- The `strconv.Atoi` range-error message. -/
def atoiRangeErr (s : String) : String :=
  "strconv.Atoi: parsing \"" ++ s ++ "\": value out of range"

/-- `strconv.Atoi` (Go standard library, used at `main.go:218,244,276`): an
optional leading `+` or `-` sign followed by one or more decimal digits,
rejecting anything else as a syntax error and rejecting values outside the
signed 64-bit range as a range error. -/
def atoi (s : String) : Except String Int :=
  let parts : Int × List Char :=
    match s.data with
    | '+' :: rest => (1, rest)
    | '-' :: rest => (-1, rest)
    | rest => (1, rest)
  if parts.2.isEmpty || parts.2.any (fun c => !c.isDigit) then
    .error (atoiSyntaxErr s)
  else
    let n : Nat := parts.2.foldl (fun acc c => acc * 10 + (c.toNat - 48)) 0
    let v : Int := parts.1 * (n : Int)
    if v < -(2 ^ 63) ∨ 2 ^ 63 - 1 < v then .error (atoiRangeErr s)
    else .ok v

/-- A row of the `todo_items` table.  Every column the program maps:
`id, title, description, status, created_at, updated_at`.  The `status`
column stores a string and is nullable (`TodoItem.Status` is `*ItemStatus`,
and `TodoItemUpdate.Status` is a raw `*string`); the timestamp columns are
opaque here (no handler ever writes them). -/
structure TodoRow where
  id : Int
  title : String
  description : String
  status : Option String
  createdAt : Option String
  updatedAt : Option String
deriving DecidableEq, Repr

/-- The `todo_items` table. -/
abbrev TodoTable := List TodoRow

/-- The filter `db.Where("status <> ?", "Deleted")` (`main.go:193`) with SQL
three-valued logic: a NULL `status` makes `status <> 'Deleted'` unknown, so
the row is not selected. -/
def whereStatusNotDeleted (r : TodoRow) : Bool :=
  match r.status with
  | some s => s != "Deleted"
  | none => false

/-- The ordering `ORDER BY id desc` (`main.go:202`): `a` may come before `b`
iff `b.id ≤ a.id`. -/
def idDesc (a b : TodoRow) : Prop := b.id ≤ a.id

instance : DecidableRel idDesc := fun a b => inferInstanceAs (Decidable (b.id ≤ a.id))

instance : IsTotal TodoRow idDesc := ⟨fun a b => le_total b.id a.id⟩

instance : IsTrans TodoRow idDesc := ⟨fun _ _ _ h1 h2 => le_trans h2 h1⟩

/-- `ORDER BY id desc` as a sort of the selected rows. -/
def sortByIdDesc (l : List TodoRow) : List TodoRow := List.insertionSort idDesc l

/-- The uniform JSON envelope: either the client-error branch
(`c.JSON(http.StatusBadRequest, gin.H{"error": ...})`) or the success branch
(`c.JSON(http.StatusOK, common.SimpleSuccessResponse(data))`, whose `data`
field is the payload). -/
inductive HandlerResult (α : Type) where
  | badRequest (msg : String)
  | ok (data : α)
deriving DecidableEq, Repr

/-- The list response produced by `common.NewSuccessResponse(result, paging, nil)`
(`main.go:211`): the page of items plus the paging metadata (page, limit,
total). -/
structure ListResponse where
  items : List TodoRow
  page : Nat
  limit : Nat
  total : Nat
deriving DecidableEq, Repr

/-- `ListItem` (`main.go:178-213`) after pagination binding: apply the
`status <> 'Deleted'` filter once to the handle (`main.go:193`), count the
filtered rows into `paging.Total` (`main.go:195`), then fetch the page
`ORDER BY id desc OFFSET (page-1)*limit LIMIT limit` (`main.go:202-204`).
`paging.Process` (package `common`, not under `src/`) has normalized
`page ≥ 1` and `limit`; with `page ≥ 1` the Go `(paging.Page - 1) * paging.Limit`
coincides with the truncated `Nat` subtraction used here. -/
def ListItem (db : TodoTable) (page limit : Nat) : ListResponse :=
  let filtered := db.filter whereStatusNotDeleted
  let total := filtered.length
  let items := ((sortByIdDesc filtered).drop ((page - 1) * limit)).take limit
  ⟨items, page, limit, total⟩

/-- The in-memory `TodoItem` struct (`main.go:92-97`) as produced by a row
fetch: the `status` column is scanned through `ItemStatus.Scan` when
non-NULL and left as a nil pointer when NULL. -/
structure TodoItem where
  id : Int
  title : String
  description : String
  status : Option ItemStatus
  createdAt : Option String
  updatedAt : Option String
deriving DecidableEq, Repr

/-- Scanning one row into a `TodoItem`: a NULL status column yields a nil
`Status` pointer; a non-NULL column is passed as bytes to `ItemStatus.Scan`
(`main.go:43-59`), whose error aborts the fetch. -/
def scanRow (r : TodoRow) : Except String TodoItem :=
  match r.status with
  | none => .ok ⟨r.id, r.title, r.description, none, r.createdAt, r.updatedAt⟩
  | some s =>
    let res := ItemStatus.scan .doing (.bytes s)
    match res.2 with
    | none => .ok ⟨r.id, r.title, r.description, some res.1, r.createdAt, r.updatedAt⟩
    | some e => .error e

/-- `GetItem` (`main.go:215-239`): parse the `id` path segment with
`strconv.Atoi` (client error on failure, before any database call); fetch
the first row `WHERE id = ?` (`First`, which surfaces
`gorm.ErrRecordNotFound` as "record not found" when no row matches); scan
it.  `First` orders matching rows by primary key; with an exact-id filter
that is the first matching row of the table. -/
def GetItem (db : TodoTable) (idParam : String) : HandlerResult TodoItem :=
  match atoi idParam with
  | .error e => .badRequest e
  | .ok id =>
    match db.find? (fun r => r.id == id) with
    | none => .badRequest "record not found"
    | some r =>
      match scanRow r with
      | .error e => .badRequest e
      | .ok item => .ok item

/-- The fresh primary key MySQL auto-increment assigns on insert: strictly
greater than every id ever used; since `DeleteItem` is an UPDATE and no row
is ever physically removed, it is strictly greater than every id in the
table (and at least 1 on an empty table). -/
def newRowId (db : TodoTable) : Int :=
  db.foldr (fun r acc => max r.id acc) 0 + 1

/-- `CreateItem` (`main.go:156-176`) after binding `TodoItemCreation`
(`main.go:101-106`): insert a row whose status column holds
`ItemStatus.Value` of the bound status (NULL for a nil pointer, the name
string otherwise) and whose timestamp columns take their database defaults;
respond with the newly assigned id.  Returns the response and the new
table. -/
def CreateItem (db : TodoTable) (title description : String) (status : Option ItemStatus) :
    HandlerResult Int × TodoTable :=
  let id := newRowId db
  let row : TodoRow := ⟨id, title, description, ItemStatus.value status, none, none⟩
  (.ok id, db ++ [row])

/-- The bound `TodoItemUpdate` body (`main.go:110-114`): three nullable
fields; note `Status` is a raw `*string`, not validated against the enum. -/
structure TodoItemUpdate where
  title : Option String
  description : Option String
  status : Option String
deriving DecidableEq, Repr

/-- `db.Where("id = ?", id).Updates(&data)` (`main.go:262`) applied to one
row: GORM `Updates` with a struct writes only the non-nil pointer fields;
every nil field keeps the column's prior value. -/
def applyUpdate (u : TodoItemUpdate) (r : TodoRow) : TodoRow :=
  { r with
    title := u.title.getD r.title
    description := u.description.getD r.description
    status := match u.status with
      | some s => some s
      | none => r.status }

/-- `UpdateItem` (`main.go:241-272`): parse the `id` path segment (client
error on failure, before binding and before any database call), then update
the non-nil fields of every row `WHERE id = ?` and respond `true`.
Returns the response and the new table. -/
def UpdateItem (db : TodoTable) (idParam : String) (u : TodoItemUpdate) :
    HandlerResult Bool × TodoTable :=
  match atoi idParam with
  | .error e => (.badRequest e, db)
  | .ok id =>
    (.ok true, db.map (fun r => if r.id = id then applyUpdate u r else r))

/-- `DeleteItem` (`main.go:274-297`): parse the `id` path segment (client
error on failure, before any database call), then
`Updates(map[string]interface{}{"status": "Deleted"})` on `WHERE id = ?`:
set only the status column of the matching rows to the string `Deleted`,
removing nothing.  Returns the response and the new table. -/
def DeleteItem (db : TodoTable) (idParam : String) : HandlerResult Bool × TodoTable :=
  match atoi idParam with
  | .error e => (.badRequest e, db)
  | .ok id =>
    (.ok true, db.map (fun r => if r.id = id then { r with status := some "Deleted" } else r))

/-! ## Theorems -/

/-- `parseStr2ItemStatus` succeeds exactly on the three status names. -/
theorem parse_ok_iff (s : String) :
    (parseStr2ItemStatus s).2 = none ↔ (s = "Doing" ∨ s = "Done" ∨ s = "Deleted") := by
  by_cases h1 : s = "Doing" <;> by_cases h2 : s = "Done" <;> by_cases h3 : s = "Deleted" <;>
    simp [parseStr2ItemStatus, h1, h2, h3]

/-- C9: `parseStr2ItemStatus` and `String` form a round-trip — for every
`ItemStatus` value, parsing its name returns that value with a nil error,
and for every string that is none of "Doing", "Done", "Deleted", parsing
returns `ItemStatus(0)` together with the "invalid status string" error. -/
theorem parse_string_roundtrip (v : ItemStatus) (s : String)
    (h1 : s ≠ "Doing") (h2 : s ≠ "Done") (h3 : s ≠ "Deleted") :
    parseStr2ItemStatus v.string = (v, none) ∧
    parseStr2ItemStatus s = (.doing, some "invalid status string") := by
  constructor
  · cases v <;> rfl
  · simp [parseStr2ItemStatus, h1, h2, h3]

/-- Witness for `parse_string_roundtrip` at `v = done`, `s = "foo"`. -/
theorem parse_string_roundtrip_witness :
    parseStr2ItemStatus ItemStatus.done.string = (ItemStatus.done, none) ∧
    parseStr2ItemStatus "foo" = (.doing, some "invalid status string") :=
  parse_string_roundtrip .done "foo" (by decide) (by decide) (by decide)

/-- C8: each status value is serialized on the wire as the JSON string of
its name (`MarshalJSON` wraps the name in double quotes), stored in the
backend as the bare name (`Value`), and `Scan` parses those stored bytes
back to the same enum value, failing on any string that is not one of the
three names. -/
theorem status_wire_and_store (v prev : ItemStatus) (s : String)
    (h1 : s ≠ "Doing") (h2 : s ≠ "Done") (h3 : s ≠ "Deleted") :
    ItemStatus.marshalJSON (some .doing) = some "\"Doing\"" ∧
    ItemStatus.marshalJSON (some .done) = some "\"Done\"" ∧
    ItemStatus.marshalJSON (some .deleted) = some "\"Deleted\"" ∧
    ItemStatus.marshalJSON (some v) = some ("\"" ++ v.string ++ "\"") ∧
    ItemStatus.value (some v) = some v.string ∧
    ItemStatus.scan prev (.bytes v.string) = (v, none) ∧
    (ItemStatus.scan prev (.bytes s)).2 = some "fail to scan data from sql" := by
  refine ⟨by decide, by decide, by decide, rfl, rfl, ?_, ?_⟩
  · cases v <;> rfl
  · simp [ItemStatus.scan, parseStr2ItemStatus, h1, h2, h3]

/-- Witness for `status_wire_and_store` at `v = done`, `prev = doing`,
`s = "done"` (names are case-sensitive). -/
theorem status_wire_and_store_witness :
    ItemStatus.scan ItemStatus.doing (.bytes ItemStatus.done.string) = (ItemStatus.done, none) ∧
    (ItemStatus.scan ItemStatus.doing (.bytes "done")).2 = some "fail to scan data from sql" :=
  ⟨(status_wire_and_store .done .doing "done" (by decide) (by decide) (by decide)).2.2.2.2.2.1,
   (status_wire_and_store .done .doing "done" (by decide) (by decide) (by decide)).2.2.2.2.2.2⟩

/-- C10: `UnmarshalJSON` strips every double-quote character of its input
before parsing, so it succeeds exactly when the input with all `"` removed
is one of the three names, and on failure it leaves the receiver
unchanged. -/
theorem unmarshalJSON_strip_spec (prev : ItemStatus) (data : String) :
    ((ItemStatus.unmarshalJSON prev data).2 = none ↔
      (stripQuotes data = "Doing" ∨ stripQuotes data = "Done" ∨ stripQuotes data = "Deleted")) ∧
    ((ItemStatus.unmarshalJSON prev data).2 ≠ none →
      (ItemStatus.unmarshalJSON prev data).1 = prev) := by
  unfold ItemStatus.unmarshalJSON
  by_cases h1 : stripQuotes data = "Doing" <;>
    by_cases h2 : stripQuotes data = "Done" <;>
      by_cases h3 : stripQuotes data = "Deleted" <;>
        simp [parseStr2ItemStatus, h1, h2, h3]

/-- Witness for `unmarshalJSON_strip_spec`: the unquoted input `Doing` and
the malformed input `"Do"ing"` are accepted; `Dxing` is rejected and the
receiver keeps its prior value. -/
theorem unmarshalJSON_strip_spec_witness :
    (ItemStatus.unmarshalJSON .done "Doing").2 = none ∧
    (ItemStatus.unmarshalJSON .done "\"Do\"ing\"").2 = none ∧
    (ItemStatus.unmarshalJSON .done "Dxing").1 = .done :=
  ⟨(unmarshalJSON_strip_spec .done "Doing").1.mpr (by decide),
   (unmarshalJSON_strip_spec .done "\"Do\"ing\"").1.mpr (by decide),
   (unmarshalJSON_strip_spec .done "Dxing").2 (by decide)⟩

/-- C5: when the `id` path segment does not parse as an integer, each of
Get, Update and Delete returns the client-error response carrying the parse
error message, leaves the table unchanged, and its result does not depend
on the table at all (no database call is issued). -/
theorem invalid_id_client_error (db db2 : TodoTable) (u : TodoItemUpdate)
    (p e : String) (h : atoi p = .error e) :
    GetItem db p = .badRequest e ∧
    UpdateItem db p u = (.badRequest e, db) ∧
    DeleteItem db p = (.badRequest e, db) ∧
    GetItem db p = GetItem db2 p ∧
    (UpdateItem db p u).1 = (UpdateItem db2 p u).1 ∧
    (DeleteItem db p).1 = (DeleteItem db2 p).1 := by
  simp [GetItem, UpdateItem, DeleteItem, h]

/-- Witness for `invalid_id_client_error` at `p = "abc"`. -/
theorem invalid_id_client_error_witness :
    GetItem [] "abc" = .badRequest (atoiSyntaxErr "abc") ∧
    UpdateItem [] "abc" ⟨none, none, none⟩ = (.badRequest (atoiSyntaxErr "abc"), []) ∧
    DeleteItem [] "abc" = (.badRequest (atoiSyntaxErr "abc"), []) ∧
    GetItem [] "abc" = GetItem [⟨1, "t", "d", none, none, none⟩] "abc" ∧
    (UpdateItem [] "abc" ⟨none, none, none⟩).1 =
      (UpdateItem [⟨1, "t", "d", none, none, none⟩] "abc" ⟨none, none, none⟩).1 ∧
    (DeleteItem [] "abc").1 = (DeleteItem [⟨1, "t", "d", none, none, none⟩] "abc").1 :=
  invalid_id_client_error [] [⟨1, "t", "d", none, none, none⟩] ⟨none, none, none⟩
    "abc" (atoiSyntaxErr "abc") (by rfl)

/-- C6: a Get whose id parses but matches no row yields the not-found error
response, never a success payload. -/
theorem get_missing_row_not_found (db : TodoTable) (p : String) (id : Int)
    (hparse : atoi p = .ok id)
    (habs : db.find? (fun r => r.id == id) = none) :
    GetItem db p = .badRequest "record not found" ∧
    ∀ item, GetItem db p ≠ HandlerResult.ok item := by
  simp [GetItem, hparse, habs]

/-- Witness for `get_missing_row_not_found` at the empty table and id 5. -/
theorem get_missing_row_not_found_witness :
    GetItem [] "5" = .badRequest "record not found" ∧
    ∀ item, GetItem [] "5" ≠ HandlerResult.ok item :=
  get_missing_row_not_found [] "5" 5 (by rfl) (by rfl)

/-- C2: a delete with a valid id responds `true` and performs a pure
partial update — no record is removed (same length), the matching row gets
status column `"Deleted"` with every other column unchanged, and every row
with a different id is completely unchanged. -/
theorem delete_is_logical (db : TodoTable) (p : String) (id : Int)
    (hparse : atoi p = .ok id) :
    (DeleteItem db p).1 = .ok true ∧
    (DeleteItem db p).2.length = db.length ∧
    ∀ i (hi : i < db.length) (hi' : i < (DeleteItem db p).2.length),
      (DeleteItem db p).2.get ⟨i, hi'⟩ =
        if (db.get ⟨i, hi⟩).id = id then
          { db.get ⟨i, hi⟩ with status := some "Deleted" }
        else db.get ⟨i, hi⟩ := by
  refine ⟨by simp [DeleteItem, hparse], by simp [DeleteItem, hparse], ?_⟩
  intro i hi hi'
  simp [DeleteItem, hparse]

/-- Witness for `delete_is_logical`: deleting id 1 in a two-row table turns
row 1's status to `"Deleted"` keeping its other columns, and leaves row 2
untouched. -/
theorem delete_is_logical_witness :
    (DeleteItem [⟨1, "a", "b", some "Doing", none, none⟩,
                 ⟨2, "c", "d", some "Done", none, none⟩] "1").2.get ⟨0, by decide⟩ =
      ⟨1, "a", "b", some "Deleted", none, none⟩ ∧
    (DeleteItem [⟨1, "a", "b", some "Doing", none, none⟩,
                 ⟨2, "c", "d", some "Done", none, none⟩] "1").2.get ⟨1, by decide⟩ =
      ⟨2, "c", "d", some "Done", none, none⟩ := by
  have h := delete_is_logical
    [⟨1, "a", "b", some "Doing", none, none⟩, ⟨2, "c", "d", some "Done", none, none⟩] "1" 1 rfl
  exact ⟨by simpa using h.2.2 0 (by decide) (by decide),
         by simpa using h.2.2 1 (by decide) (by decide)⟩

/-- C3: an update with a valid id writes only the non-nil bound fields of
the matching row — every omitted field keeps its prior value, the id and
timestamp columns are untouched — and every row with a different id is
completely unchanged (and no row is added or removed). -/
theorem update_is_partial (db : TodoTable) (p : String) (id : Int)
    (u : TodoItemUpdate) (hparse : atoi p = .ok id) :
    (UpdateItem db p u).1 = .ok true ∧
    (UpdateItem db p u).2.length = db.length ∧
    ∀ i (hi : i < db.length) (hi' : i < (UpdateItem db p u).2.length),
      ((db.get ⟨i, hi⟩).id ≠ id → (UpdateItem db p u).2.get ⟨i, hi'⟩ = db.get ⟨i, hi⟩) ∧
      ((db.get ⟨i, hi⟩).id = id →
        ((UpdateItem db p u).2.get ⟨i, hi'⟩).id = (db.get ⟨i, hi⟩).id ∧
        ((UpdateItem db p u).2.get ⟨i, hi'⟩).createdAt = (db.get ⟨i, hi⟩).createdAt ∧
        ((UpdateItem db p u).2.get ⟨i, hi'⟩).updatedAt = (db.get ⟨i, hi⟩).updatedAt ∧
        (u.title = none → ((UpdateItem db p u).2.get ⟨i, hi'⟩).title = (db.get ⟨i, hi⟩).title) ∧
        (∀ t, u.title = some t → ((UpdateItem db p u).2.get ⟨i, hi'⟩).title = t) ∧
        (u.description = none →
          ((UpdateItem db p u).2.get ⟨i, hi'⟩).description = (db.get ⟨i, hi⟩).description) ∧
        (∀ d, u.description = some d → ((UpdateItem db p u).2.get ⟨i, hi'⟩).description = d) ∧
        (u.status = none →
          ((UpdateItem db p u).2.get ⟨i, hi'⟩).status = (db.get ⟨i, hi⟩).status) ∧
        (∀ s, u.status = some s → ((UpdateItem db p u).2.get ⟨i, hi'⟩).status = some s)) := by
  have htab : (UpdateItem db p u).2 =
      db.map (fun r => if r.id = id then applyUpdate u r else r) := by
    simp [UpdateItem, hparse]
  refine ⟨by simp [UpdateItem, hparse], by simp [htab], ?_⟩
  intro i hi hi'
  have hget : (UpdateItem db p u).2.get ⟨i, hi'⟩ =
      if (db.get ⟨i, hi⟩).id = id then applyUpdate u (db.get ⟨i, hi⟩) else db.get ⟨i, hi⟩ := by
    simp only [List.get_eq_getElem, htab, List.getElem_map]
  constructor
  · intro hne
    rw [hget, if_neg hne]
  · intro heq
    rw [hget, if_pos heq]
    refine ⟨rfl, rfl, rfl, ?_, ?_, ?_, ?_, ?_, ?_⟩
    · intro h
      simp [applyUpdate, h]
    · intro t h
      simp [applyUpdate, h]
    · intro h
      simp [applyUpdate, h]
    · intro d h
      simp [applyUpdate, h]
    · intro h
      simp [applyUpdate, h]
    · intro s h
      simp [applyUpdate, h]

/-- Witness for `update_is_partial`: updating id 2 with only a new title
changes that row's title, keeps its description and status, and leaves
row 1 untouched. -/
theorem update_is_partial_witness :
    ((UpdateItem [⟨1, "a", "b", some "Doing", none, none⟩,
                  ⟨2, "c", "d", some "Done", none, none⟩] "2"
        ⟨some "new", none, none⟩).2.get ⟨0, by decide⟩ =
      ⟨1, "a", "b", some "Doing", none, none⟩) ∧
    ((UpdateItem [⟨1, "a", "b", some "Doing", none, none⟩,
                  ⟨2, "c", "d", some "Done", none, none⟩] "2"
        ⟨some "new", none, none⟩).2.get ⟨1, by decide⟩).title = "new" ∧
    ((UpdateItem [⟨1, "a", "b", some "Doing", none, none⟩,
                  ⟨2, "c", "d", some "Done", none, none⟩] "2"
        ⟨some "new", none, none⟩).2.get ⟨1, by decide⟩).status = some "Done" := by
  have h := update_is_partial
    [⟨1, "a", "b", some "Doing", none, none⟩, ⟨2, "c", "d", some "Done", none, none⟩]
    "2" 2 ⟨some "new", none, none⟩ rfl
  refine ⟨?_, ?_, ?_⟩
  · simpa using (h.2.2 0 (by decide) (by decide)).1 (by decide)
  · exact ((h.2.2 1 (by decide) (by decide)).2 (by decide)).2.2.2.2.1 "new" rfl
  · simpa using ((h.2.2 1 (by decide) (by decide)).2 (by decide)).2.2.2.2.2.2.2.1 rfl

/-- Every id in the table is bounded by the fold `newRowId` builds on. -/
theorem id_le_foldMax (db : TodoTable) :
    ∀ r ∈ db, r.id ≤ db.foldr (fun r acc => max r.id acc) 0 := by
  induction db with
  | nil => simp
  | cons a l ih =>
    intro r hr
    rcases List.mem_cons.mp hr with rfl | hr
    · exact le_max_left _ _
    · exact le_trans (ih r hr) (le_max_right _ _)

/-- The freshly assigned id is strictly greater than every id in the table. -/
theorem newRowId_gt (db : TodoTable) : ∀ r ∈ db, r.id < newRowId db :=
  fun r hr => lt_of_le_of_lt (id_le_foldMax db r hr) (lt_add_one _)

/-- Scanning a row whose status column was written through `ItemStatus.Value`
recovers the original enum value. -/
theorem scanRow_value (idv : Int) (t d : String) (s : ItemStatus) :
    scanRow ⟨idv, t, d, ItemStatus.value (some s), none, none⟩ =
      .ok ⟨idv, t, d, some s, none, none⟩ := by
  cases s <;> rfl

/-- C7: a successful create responds with the newly assigned id, and a
subsequent Get at that id returns an item whose title, description and
status are exactly the created ones. -/
theorem create_then_get (db : TodoTable) (t d : String) (s : ItemStatus) (p : String)
    (hp : atoi p = .ok (newRowId db)) :
    (CreateItem db t d (some s)).1 = .ok (newRowId db) ∧
    GetItem (CreateItem db t d (some s)).2 p =
      .ok ⟨newRowId db, t, d, some s, none, none⟩ := by
  refine ⟨rfl, ?_⟩
  have hnone : db.find? (fun r => r.id == newRowId db) = none := by
    rw [List.find?_eq_none]
    intro r hr
    simpa using ne_of_lt (newRowId_gt db r hr)
  have hfind : List.find? (fun (r : TodoRow) => r.id == newRowId db)
      [⟨newRowId db, t, d, ItemStatus.value (some s), none, none⟩] =
      some (⟨newRowId db, t, d, ItemStatus.value (some s), none, none⟩ : TodoRow) := by
    simp
  simp only [GetItem, hp, CreateItem, List.find?_append, hnone, Option.none_or,
    hfind, scanRow_value]

/-- Witness for `create_then_get`: creating in the empty table assigns
id 1, and `GET /v1/items/1` returns the created fields. -/
theorem create_then_get_witness :
    (CreateItem [] "x" "y" (some .done)).1 = .ok (newRowId []) ∧
    GetItem (CreateItem [] "x" "y" (some .done)).2 "1" =
      .ok ⟨newRowId [], "x", "y", some .done, none, none⟩ :=
  create_then_get [] "x" "y" .done "1" (by rfl)

/-- A row passing the `status <> 'Deleted'` filter does not have status
`Deleted`. -/
theorem not_deleted_of_filter (r : TodoRow) (h : whereStatusNotDeleted r = true) :
    r.status ≠ some "Deleted" := by
  cases hs : r.status with
  | none => simp
  | some s =>
    simp only [whereStatusNotDeleted, hs, bne_iff_ne, ne_eq] at h
    simp [h]

/-- C1: no item of any returned list page has status `Deleted`, and the
total in the paging metadata counts exactly the rows selected by the
`status <> 'Deleted'` filter — the same filter the page fetch uses. -/
theorem list_excludes_deleted (db : TodoTable) (page limit : Nat) :
    (∀ r ∈ (ListItem db page limit).items, r.status ≠ some "Deleted") ∧
    (ListItem db page limit).total = (db.filter whereStatusNotDeleted).length := by
  refine ⟨?_, rfl⟩
  intro r hr
  simp only [ListItem] at hr
  have h1 : r ∈ sortByIdDesc (db.filter whereStatusNotDeleted) :=
    List.mem_of_mem_drop (List.mem_of_mem_take hr)
  have h2 : r ∈ db.filter whereStatusNotDeleted :=
    (List.perm_insertionSort idDesc _).subset h1
  exact not_deleted_of_filter r (List.mem_filter.mp h2).2

/-- Witness for `list_excludes_deleted` on a table holding one `Doing`, one
`Deleted` and one NULL-status row: the page contains the `Doing` row (whose
status is not `Deleted`) and the total is 1. -/
theorem list_excludes_deleted_witness :
    (⟨1, "a", "b", some "Doing", none, none⟩ : TodoRow).status ≠ some "Deleted" ∧
    (ListItem [⟨1, "a", "b", some "Doing", none, none⟩,
               ⟨2, "c", "d", some "Deleted", none, none⟩,
               ⟨3, "e", "f", none, none, none⟩] 1 10).total = 1 :=
  ⟨(list_excludes_deleted [⟨1, "a", "b", some "Doing", none, none⟩,
      ⟨2, "c", "d", some "Deleted", none, none⟩,
      ⟨3, "e", "f", none, none, none⟩] 1 10).1
      ⟨1, "a", "b", some "Doing", none, none⟩ (by decide),
   (list_excludes_deleted [⟨1, "a", "b", some "Doing", none, none⟩,
      ⟨2, "c", "d", some "Deleted", none, none⟩,
      ⟨3, "e", "f", none, none, none⟩] 1 10).2⟩

/-- Strict descending order on ids, the spec-side characterization of
"ordered by id descending" (well-defined because ids are unique). -/
def idDescStrict (a b : TodoRow) : Prop := b.id < a.id

instance : DecidableRel idDescStrict := fun a b => inferInstanceAs (Decidable (b.id < a.id))

instance : IsAntisymm TodoRow idDescStrict :=
  ⟨fun _ _ h1 h2 => absurd (lt_trans h1 h2) (lt_irrefl _)⟩

/-- C4: for every list request with page ≥ 1, the returned items are the
non-deleted rows in strictly descending id order with the first
`(page-1)*limit` of them skipped and at most `limit` taken: whenever `s` is
an arrangement of the filtered rows in strictly descending id order, the
page equals `(s.drop ((page-1)*limit)).take limit`. -/
theorem list_pagination (db : TodoTable) (page limit : Nat) (s : List TodoRow)
    (_hpage : 1 ≤ page)
    (hperm : s.Perm (db.filter whereStatusNotDeleted))
    (hsort : s.Pairwise idDescStrict) :
    (ListItem db page limit).items = (s.drop ((page - 1) * limit)).take limit ∧
    (ListItem db page limit).items.length ≤ limit := by
  have hkey : sortByIdDesc (db.filter whereStatusNotDeleted) = s := by
    have hle : List.Sorted idDesc (sortByIdDesc (db.filter whereStatusNotDeleted)) :=
      List.sorted_insertionSort idDesc _
    have hperm2 : List.Perm s (sortByIdDesc (db.filter whereStatusNotDeleted)) :=
      hperm.trans (List.perm_insertionSort idDesc _).symm
    have hs_ne : s.Pairwise (fun a b => a.id ≠ b.id) :=
      hsort.imp (fun h => ne_of_gt h)
    have hne : (sortByIdDesc (db.filter whereStatusNotDeleted)).Pairwise
        (fun a b => a.id ≠ b.id) :=
      (hperm2.pairwise_iff (fun hab => hab.symm)).mp hs_ne
    have hstrict : (sortByIdDesc (db.filter whereStatusNotDeleted)).Pairwise idDescStrict :=
      (hle.and hne).imp (fun h => lt_of_le_of_ne h.1 (fun e => h.2 e.symm))
    exact List.eq_of_perm_of_sorted hperm2.symm hstrict hsort
  refine ⟨?_, ?_⟩
  · simp only [ListItem]
    rw [hkey]
  · simp only [ListItem]
    exact List.length_take_le _ _

/-- Witness for `list_pagination`: a three-row table with one deleted row;
its non-deleted rows in descending id order are ids 4 and 1, so page 2 with
limit 1 returns exactly the row with id 1. -/
theorem list_pagination_witness :
    (ListItem [⟨1, "a", "b", some "Doing", none, none⟩,
               ⟨4, "c", "d", some "Done", none, none⟩,
               ⟨3, "e", "f", some "Deleted", none, none⟩] 2 1).items =
      [⟨1, "a", "b", some "Doing", none, none⟩] ∧
    (ListItem [⟨1, "a", "b", some "Doing", none, none⟩,
               ⟨4, "c", "d", some "Done", none, none⟩,
               ⟨3, "e", "f", some "Deleted", none, none⟩] 2 1).items.length ≤ 1 := by
  have h := list_pagination
    [⟨1, "a", "b", some "Doing", none, none⟩,
     ⟨4, "c", "d", some "Done", none, none⟩,
     ⟨3, "e", "f", some "Deleted", none, none⟩] 2 1
    [⟨4, "c", "d", some "Done", none, none⟩, ⟨1, "a", "b", some "Doing", none, none⟩]
    (by decide) (by decide) (by decide)
  exact ⟨by simpa using h.1, h.2⟩
